import Mathlib

/-!
Verification development for the pas-control laser tuning core.

The embedding follows the Python source:
  * `MaxonMotor.py` — calibration decoding (`read_calc_parameters`), the
    quadratic position/wavelength maps (`position_to_wavelength`,
    `wavelength_to_position`), and the hysteresis-compensated coarse move
    (`go_to_wavelength` with its nested `write_final_position` closure).
  * `SacherLion.py` — the piezo PI lock loop (`_lock_piezo`), the piezo
    voltage bound check (`set_piezo_voltage`), and the coarse+fine
    orchestration (`go_to_frequency`).

Python floats are idealised as exact rationals (ℚ); machine int32 reads are
modelled as two's-complement decodings of raw 32-bit words.  Device and
wavemeter behaviour is supplied by explicit oracle structures so that the
theorems quantify over every device response (success or failure of each
move, each stored-position write, and each sampled frequency).
-/

/-- Keys of the `calc_parameters` dictionary.  `read_calc_parameters`
(MaxonMotor.py lines 84-90) stores exactly the five keys A, B, C,
min_wavelength, max_wavelength.  `go_to_wavelength` (line 127) looks up the
misspelled key string written there as 'max_wavlength' (no second 'e'),
which differs from every stored key; it is kept as a distinct constructor. -/
inductive DictKey where
  | keyA
  | keyB
  | keyC
  | min_wavelength
  | max_wavelength
  | max_wavlength
deriving DecidableEq

/-- Python exceptions that the coarse-move code can raise. -/
inductive VCSErr where
  | moveError
  | writeError
deriving DecidableEq

/-- Python exceptions visible at the `go_to_wavelength` / `go_to_frequency`
level: a dictionary KeyError, the out-of-range ValueError of line 129, or a
re-raised device error. -/
inductive PyErr where
  | keyError (k : DictKey)
  | valueError
  | vcs (e : VCSErr)
deriving DecidableEq

/-- The immutable calibration record built by `read_calc_parameters`
(MaxonMotor.py lines 72-91): A, B, C are signed 32-bit integers, the
min/max wavelengths are 16-bit words divided by 10 (in nm). -/
structure CalcParameters where
  A : ℤ
  B : ℤ
  C : ℤ
  min_wavelength : ℚ
  max_wavelength : ℚ
deriving DecidableEq

/-- Lookup in the `calc_parameters` dictionary (MaxonMotor.py lines 84-90).
Only the five stored keys are present; the misspelled lookup key of line
127 is absent, so looking it up yields `none` (a Python KeyError at the
call site). -/
def calcDict (p : CalcParameters) : DictKey → Option ℚ
  | DictKey.keyA => some p.A
  | DictKey.keyB => some p.B
  | DictKey.keyC => some p.C
  | DictKey.min_wavelength => some p.min_wavelength
  | DictKey.max_wavelength => some p.max_wavelength
  | DictKey.max_wavlength => none

/-- Two's-complement decoding of a raw 32-bit word as a signed int32, the
effect of `cast(..., POINTER(c_int32))` on the 4 bytes returned by
`_GetObject` (MaxonMotor.py lines 78-80). -/
def toInt32 (raw : ℕ) : ℤ :=
  if raw % 2 ^ 32 < 2 ^ 31 then (raw % 2 ^ 32 : ℕ) else (raw % 2 ^ 32 : ℕ) - 2 ^ 32

/-- `read_calc_parameters` (MaxonMotor.py lines 72-91): A, B, C are the
direct signed-int32 interpretations of three raw EPROM words; the fourth
raw word is split into two little-endian 16-bit halves, each divided by 10,
giving min and max wavelength in nm. -/
def read_calc_parameters (rawA rawB rawC rawW : ℕ) : CalcParameters :=
  ⟨toInt32 rawA, toInt32 rawB, toInt32 rawC,
    ((rawW % 2 ^ 16 : ℕ) : ℚ) / 10,
    ((rawW / 2 ^ 16 % 2 ^ 16 : ℕ) : ℚ) / 10⟩

/-- Follows the spec's words (spec §4.1 `decodeFloat`), for comparison with
the source: bit 31 is the mantissa sign, bits 30..8 an unsigned 23-bit
mantissa divided by 1,000,000, bit 7 the exponent sign, bits 6..0 a 7-bit
exponent magnitude; result = sign * mantissa * 2^(±exponent).  No such
decoder exists anywhere in the source; `read_calc_parameters` reads the
words directly as signed int32 values. -/
def decodeFloatSpec (raw : ℕ) : ℚ :=
  (if raw / 2 ^ 31 % 2 = 1 then (-1 : ℚ) else 1) *
    (((raw / 2 ^ 8 % 2 ^ 23 : ℕ) : ℚ) / 1000000) *
    (if raw / 2 ^ 7 % 2 = 1 then ((1 : ℚ) / 2) ^ (raw % 2 ^ 7) else (2 : ℚ) ^ (raw % 2 ^ 7))

/-- `position_to_wavelength` (MaxonMotor.py lines 99-105): evaluate the
calibration quadratic A*position^2 + B*position + C. -/
def position_to_wavelength (p : CalcParameters) (pos : ℚ) : ℚ :=
  (p.A : ℚ) * pos ^ 2 + (p.B : ℚ) * pos + (p.C : ℚ)

/-- The ascending/descending test of `wavelength_to_position`
(MaxonMotor.py line 112): the quadratic is called ascending when
`position_to_wavelength(5000) - position_to_wavelength(0) > 0`. -/
def ascendingFlag (p : CalcParameters) : Bool :=
  decide (0 < position_to_wavelength p 5000 - position_to_wavelength p 0)

/-- Root-branch selection of `wavelength_to_position` (MaxonMotor.py line
120): the + root is chosen exactly when `not ((A > 0) ^ ascending)`, i.e.
when the sign test and the ascending flag agree. -/
def root_sign_plus (aPos ascending : Bool) : Bool :=
  !(aPos.xor ascending)

/-- The vertex term `-B/(2*A)` of the quadratic inversion
(MaxonMotor.py line 116). -/
def vertex (p : CalcParameters) : ℚ :=
  -(p.B : ℚ) / (2 * (p.A : ℚ))

/-- The radicand `B^2/(4*A^2) - (C - wavelength)/A` under the square root
of the quadratic inversion (MaxonMotor.py line 117). -/
def wtpDisc (p : CalcParameters) (w : ℚ) : ℚ :=
  (p.B : ℚ) ^ 2 / (4 * (p.A : ℚ) ^ 2) - ((p.C : ℚ) - w) / (p.A : ℚ)

/-- Symbolic value of `wavelength_to_position`: either NaN (np.sqrt of a
negative radicand yields NaN, and part1 ± NaN is NaN), or the exact root
`base ± sqrt radicand` represented symbolically (the root is irrational in
general, so the square root is kept unevaluated). -/
inductive SymPos where
  | nan
  | root (base : ℚ) (plus : Bool) (radicand : ℚ)
deriving DecidableEq

/-- `wavelength_to_position` (MaxonMotor.py lines 107-123).  `np.sqrt` of a
negative radicand returns NaN (with a RuntimeWarning, not an exception),
and adding or subtracting NaN gives NaN; otherwise the function returns
`part1 + part2` when `not ((A > 0) ^ ascending)` and `part1 - part2`
otherwise.  The function raises nothing. -/
def wavelength_to_position (p : CalcParameters) (w : ℚ) : SymPos :=
  if wtpDisc p w < 0 then SymPos.nan
  else if root_sign_plus (decide (0 < p.A)) (ascendingFlag p) then
    SymPos.root (vertex p) true (wtpDisc p w)
  else
    SymPos.root (vertex p) false (wtpDisc p w)

/-- Coarse-device I/O events, at the capability-interface granularity used
by `go_to_wavelength`: the stored-position read (line 130), each relative
move command issued through `_move` (lines 146, 151, 157), the live
relative-position read (line 135) and the stored-position write-back
attempt (line 138). -/
inductive MotorEvent where
  | readStored (v : ℤ)
  | moveCall (rel : ℚ)
  | readRel (v : ℤ)
  | writeHome (v : ℤ)
deriving DecidableEq

/-- Oracle describing one coarse-device behaviour: the stored position
returned by `read_stored_position`, the physical relative-position counter
before the first move (`rel0`), whether the n-th issued move reports
success, the actual displacement the n-th issued move achieves (possibly
partial on failure), and whether the n-th stored-position write succeeds.
`targetOracle` supplies the numeric target position for the composed
function (the exact value is `vertex ± sqrt(wtpDisc)`, irrational in
general, so it enters the move phase as an oracle value). -/
structure MoveDev where
  storedPos : ℤ
  targetOracle : ℚ
  rel0 : ℤ
  moveOk : ℕ → Bool
  moveActual : ℕ → ℤ
  writeOk : ℕ → Bool

/-- The device's live relative-position counter after `n` issued moves:
the pre-move baseline plus the accumulated actual displacements. -/
def relAfter (dev : MoveDev) (n : ℕ) : ℤ :=
  dev.rel0 + ((List.range n).map dev.moveActual).sum

/-- The nested `write_final_position` closure (MaxonMotor.py lines
134-141): read the live relative position, add it to the captured stored
position, attempt the stored-position write; a failed write prints the
value and re-raises.  `movesIssued` is the number of move commands issued
before the closure runs, fixing which counter value the read returns. -/
def writeFinalPosition (stored : ℤ) (dev : MoveDev) (movesIssued : ℕ) :
    List MotorEvent × Option VCSErr :=
  ([MotorEvent.readRel (relAfter dev movesIssued),
    MotorEvent.writeHome (stored + relAfter dev movesIssued)],
   if dev.writeOk 0 then none else some VCSErr.writeError)

/-- The move phase of `go_to_wavelength` (MaxonMotor.py lines 130-162),
given the stored position and the computed target position: if
`diff < 0`, move by `diff - 10000` then by `+10000`; otherwise move by
`diff`.  On failure of any move, `write_final_position` runs and the error
is re-raised (a failing write shadows the move error, as `raise exc`
inside the closure's except block does); on success `write_final_position`
runs once at the end.  Each issued move is recorded whether or not it
succeeds. -/
def movePhase (stored : ℤ) (target : ℚ) (dev : MoveDev) :
    List MotorEvent × Option VCSErr :=
  if target - (stored : ℚ) < 0 then
    if dev.moveOk 0 then
      if dev.moveOk 1 then
        (MotorEvent.moveCall (target - (stored : ℚ) - 10000) ::
           MotorEvent.moveCall 10000 :: (writeFinalPosition stored dev 2).1,
         (writeFinalPosition stored dev 2).2)
      else
        (MotorEvent.moveCall (target - (stored : ℚ) - 10000) ::
           MotorEvent.moveCall 10000 :: (writeFinalPosition stored dev 2).1,
         match (writeFinalPosition stored dev 2).2 with
         | some e => some e
         | none => some VCSErr.moveError)
    else
      (MotorEvent.moveCall (target - (stored : ℚ) - 10000) ::
         (writeFinalPosition stored dev 1).1,
       match (writeFinalPosition stored dev 1).2 with
       | some e => some e
       | none => some VCSErr.moveError)
  else
    if dev.moveOk 0 then
      (MotorEvent.moveCall (target - (stored : ℚ)) ::
         (writeFinalPosition stored dev 1).1,
       (writeFinalPosition stored dev 1).2)
    else
      (MotorEvent.moveCall (target - (stored : ℚ)) ::
         (writeFinalPosition stored dev 1).1,
       match (writeFinalPosition stored dev 1).2 with
       | some e => some e
       | none => some VCSErr.moveError)

/-- `go_to_wavelength` (MaxonMotor.py lines 125-162).  Line 126 looks up
'min_wavelength' (present); line 127 looks up the misspelled key
'max_wavlength', which the dictionary does not contain, raising KeyError
before the range check of line 128 and before any device I/O.  The
(unreachable) continuation reads the stored position, inverts the
calibration and runs the move phase; its numeric target is supplied by the
device oracle since the exact root is irrational. -/
def go_to_wavelength (p : CalcParameters) (w : ℚ) (dev : MoveDev) :
    List MotorEvent × Option PyErr :=
  match calcDict p DictKey.min_wavelength with
  | none => ([], some (PyErr.keyError DictKey.min_wavelength))
  | some mn =>
    match calcDict p DictKey.max_wavlength with
    | none => ([], some (PyErr.keyError DictKey.max_wavlength))
    | some mx =>
      if w < mn ∨ mx < w then ([], some PyErr.valueError)
      else
        (MotorEvent.readStored dev.storedPos ::
           (movePhase dev.storedPos dev.targetOracle dev).1,
         match (movePhase dev.storedPos dev.targetOracle dev).2 with
         | some e => some (PyErr.vcs e)
         | none => none)

/-- `go_to_frequency` (SacherLion.py lines 204-223): its first statement is
`self._motor.go_to_wavelength(freq)`; an exception there propagates before
the piezo lock phase starts, so the coarse-motor trace of the whole call is
exactly that of `go_to_wavelength` (the lock phase issues no coarse-motor
commands; it is modelled separately by `lockStep`). -/
def go_to_frequency (p : CalcParameters) (w : ℚ) (dev : MoveDev) :
    List MotorEvent × Option PyErr :=
  match (go_to_wavelength p w dev).2 with
  | some e => ((go_to_wavelength p w dev).1, some e)
  | none => ((go_to_wavelength p w dev).1, none)

/-- Configuration of one `_lock_piezo` run (SacherLion.py lines 269-277):
setpoint and tolerance in GHz, the tunable P and I gains, the integration
window `tau`, and the `stable_after` stability threshold. -/
structure LockCfg where
  setpoint : ℚ
  tol : ℚ
  P : ℚ
  I : ℚ
  tau : ℕ
  stable_after : ℕ
deriving DecidableEq

/-- Mutable state of the lock loop across iterations: the stability
counter (line 304), whether `successfully_locked` is set, the
`begin_locking_time` reference (line 308), the error history deque
(line 302) and the shadowed piezo voltage (line 307). -/
structure LockState where
  counter : ℕ
  locked : Bool
  beginTime : ℚ
  history : List ℚ
  piezo : ℚ
deriving DecidableEq

/-- Inputs consumed by one loop iteration: whether `_stop_locking` is set
at the top of the iteration, the value `time.time()` returns at line 316,
the value it would return at the lock-loss re-arm (line 335), and the
wavemeter frequency sample in GHz (line 323). -/
structure LockInput where
  stop : Bool
  now : ℚ
  lossTime : ℚ
  freq : ℚ
deriving DecidableEq

/-- Outcome of one loop iteration.  `stopped` is the cooperative exit of
lines 311-313 (carrying the `_is_locking` value on exit); `failed` is the
timeout exit of lines 318-321 (carrying `_stop_locking` and `_is_locking`
on exit, before `FailedToLockLaser` is raised); `next` carries the updated
state together with the piezo step actually applied this iteration
(`none` when the step was skipped). -/
inductive StepResult where
  | stopped (isLocking : Bool)
  | failed (stopSignal : Bool) (isLocking : Bool)
  | next (st : LockState) (applied : Option ℚ)
deriving DecidableEq

/-- Result of running the loop on a finite input sequence. -/
inductive LockRun where
  | stopped (isLocking : Bool)
  | failed (stopSignal : Bool) (isLocking : Bool)
  | ongoing (st : LockState)
deriving DecidableEq

/-- `set_piezo_voltage` (SacherLion.py lines 177-196): raises ValueError
when the requested voltage is strictly above 13 V or strictly below
-13 V; otherwise writes the voltage and returns.  `some` is a raised
exception, `none` is success. -/
def set_piezo_voltage (V : ℚ) : Option PyErr :=
  if 13 < V then some PyErr.valueError
  else if V < -13 then some PyErr.valueError
  else none

/-- The response-scaling retry loop of `_lock_piezo` (SacherLion.py lines
349-366), with `sc` the current `scale_counter` and `fuel` the remaining
iterations of the `while scale_counter < 6` guard (initially 6, and
`fuel = 6 - sc` throughout).  Each pass computes
`scaled = response * 10**(-scale_counter)`; a scaled response above 0.1 in
magnitude increments the counter and retries; one below 0.001 breaks with
no step applied; otherwise `set_piezo_voltage` is attempted, a ValueError
is caught and retries with the counter incremented, and success applies
the step and breaks.  Returns the step applied, or `none` if skipped. -/
def scaleLoopFrom (pv resp : ℚ) (sc : ℕ) : ℕ → Option ℚ
  | 0 => none
  | f + 1 =>
    if 1 / 10 < |resp / 10 ^ sc| then scaleLoopFrom pv resp (sc + 1) f
    else if |resp / 10 ^ sc| < 1 / 1000 then none
    else if set_piezo_voltage (pv + resp / 10 ^ sc) = none then some (resp / 10 ^ sc)
    else scaleLoopFrom pv resp (sc + 1) f

/-- The scaling loop entered with `scale_counter = 0` (line 349). -/
def scaleLoop (pv resp : ℚ) : Option ℚ :=
  scaleLoopFrom pv resp 0 6

/-- `history.append(err)` on a `collections.deque(maxlen=tau)` (lines 302
and 339): append on the right, dropping from the left beyond capacity. -/
def appendCapped (tau : ℕ) (h : List ℚ) (x : ℚ) : List ℚ :=
  if tau < (h ++ [x]).length then (h ++ [x]).drop ((h ++ [x]).length - tau)
  else h ++ [x]

/-- The proportional gain `Kp = P * 1.5 * 0.5` (SacherLion.py line 306). -/
def lockKp (cfg : LockCfg) : ℚ :=
  cfg.P * (3 / 2) * (1 / 2)

/-- The sample-processing part of a loop iteration (SacherLion.py lines
323-339): compute `err`, update the stability counter (increment when
`|err| < tol` and not locked; reset to 0 when out of tolerance), clear
`successfully_locked` and re-arm `begin_locking_time` on lock loss, set
`successfully_locked` once the counter exceeds `stable_after`, and append
the error to the history.  The piezo voltage is not yet touched here. -/
def lockCore (cfg : LockCfg) (st : LockState) (inp : LockInput) : LockState :=
  ⟨(if |inp.freq - cfg.setpoint| < cfg.tol then
      (if st.locked then st.counter else st.counter + 1) else 0),
   (if cfg.stable_after <
        (if |inp.freq - cfg.setpoint| < cfg.tol then
          (if st.locked then st.counter else st.counter + 1) else 0) then true
    else if |inp.freq - cfg.setpoint| < cfg.tol then st.locked else false),
   (if |inp.freq - cfg.setpoint| < cfg.tol then st.beginTime
    else if st.locked then inp.lossTime else st.beginTime),
   appendCapped cfg.tau st.history (inp.freq - cfg.setpoint),
   st.piezo⟩

/-- The PI response of the iteration (SacherLion.py line 343):
`Kp * (err + I * (sum(history) / min(tau, len(history))))`, computed on
the history with the current error already appended.  (With `tau = 0`
Python would raise ZeroDivisionError here; ℚ division by zero gives 0
instead, so the lock-loop theorems assume `1 ≤ tau`.) -/
def lockResponse (cfg : LockCfg) (st : LockState) (inp : LockInput) : ℚ :=
  lockKp cfg * ((inp.freq - cfg.setpoint) + cfg.I *
    ((appendCapped cfg.tau st.history (inp.freq - cfg.setpoint)).sum /
      ((min cfg.tau (appendCapped cfg.tau st.history (inp.freq - cfg.setpoint)).length : ℕ) : ℚ)))

/-- Applying the scaling-loop outcome to the iteration's state (lines
358-359): on success the shadowed piezo voltage advances by the applied
step; on a skipped step it is unchanged. -/
def lockApply (st : LockState) (r : Option ℚ) : LockState × Option ℚ :=
  match r with
  | some s => (⟨st.counter, st.locked, st.beginTime, st.history, st.piezo + s⟩, some s)
  | none => (st, none)

/-- One full iteration of the `while True` loop of `_lock_piezo`
(SacherLion.py lines 309-368): observe `_stop_locking` and return (clearing
`_is_locking`); otherwise, when not locked and more than 30 s have elapsed
since `begin_locking_time`, set `_stop_locking`, clear `_is_locking` and
raise `FailedToLockLaser`; otherwise process the sample and run the
scaling loop on the PI response. -/
def lockStep (cfg : LockCfg) (st : LockState) (inp : LockInput) : StepResult :=
  if inp.stop = true then StepResult.stopped false
  else if st.locked = false ∧ 30 < inp.now - st.beginTime then StepResult.failed true false
  else
    StepResult.next
      (lockApply (lockCore cfg st inp) (scaleLoop st.piezo (lockResponse cfg st inp))).1
      (lockApply (lockCore cfg st inp) (scaleLoop st.piezo (lockResponse cfg st inp))).2

/-- Running the loop over a finite sequence of iteration inputs. -/
def runLock (cfg : LockCfg) (st : LockState) : List LockInput → LockRun
  | [] => LockRun.ongoing st
  | i :: rest =>
    match lockStep cfg st i with
    | StepResult.stopped b => LockRun.stopped b
    | StepResult.failed s b => LockRun.failed s b
    | StepResult.next st2 _ => runLock cfg st2 rest

/-- The initial loop state (SacherLion.py lines 300-308): counter 0,
`successfully_locked` unset, empty history, the piezo voltage read from
the instrument, and `begin_locking_time` read from the clock. -/
def initLockState (piezo0 t0 : ℚ) : LockState :=
  ⟨0, false, t0, [], piezo0⟩

/-- Pure simulation of the stability counter of lines 326-331 along an
input sequence, checking it never tops `stable_after` (the condition of
line 336 that would set `successfully_locked`): starting from counter `c`,
an in-tolerance sample increments the counter and the check requires the
new value to stay at most `stable_after`; an out-of-tolerance sample
resets it to 0. -/
def neverTops (cfg : LockCfg) : ℕ → List LockInput → Bool
  | _, [] => true
  | c, i :: rest =>
    if |i.freq - cfg.setpoint| < cfg.tol then
      decide (c + 1 ≤ cfg.stable_after) && neverTops cfg (c + 1) rest
    else neverTops cfg 0 rest

/-- Success of `set_piezo_voltage` is exactly the hard voltage bound
[-13, 13] of SacherLion.py lines 192-195. -/
lemma set_piezo_voltage_none_iff (V : ℚ) :
    set_piezo_voltage V = none ↔ (-13 ≤ V ∧ V ≤ 13) := by
  constructor
  · intro h
    unfold set_piezo_voltage at h
    split_ifs at h with h1 h2
    exact ⟨by linarith, by linarith⟩
  · rintro ⟨ha, hb⟩
    unfold set_piezo_voltage
    rw [if_neg (by linarith), if_neg (by linarith)]

/-- Characterisation of a step applied by the scaling loop: it passed the
voltage bound check, both magnitude filters, and is the response scaled by
a power of ten reached within the remaining fuel. -/
lemma scaleLoopFrom_some : ∀ (fuel sc : ℕ) (pv resp s : ℚ),
    scaleLoopFrom pv resp sc fuel = some s →
    set_piezo_voltage (pv + s) = none ∧ 1 / 1000 ≤ |s| ∧ |s| ≤ 1 / 10 ∧
      ∃ k, sc ≤ k ∧ k < sc + fuel ∧ s = resp / 10 ^ k := by
  intro fuel
  induction fuel with
  | zero =>
    intro sc pv resp s h
    simp [scaleLoopFrom] at h
  | succ f ih =>
    intro sc pv resp s h
    rw [scaleLoopFrom] at h
    by_cases h1 : (1 : ℚ) / 10 < |resp / 10 ^ sc|
    · rw [if_pos h1] at h
      obtain ⟨ha, hb, hc, k, hk1, hk2, hk3⟩ := ih (sc + 1) pv resp s h
      exact ⟨ha, hb, hc, k, by omega, by omega, hk3⟩
    · rw [if_neg h1] at h
      by_cases h2 : |resp / 10 ^ sc| < 1 / 1000
      · rw [if_pos h2] at h
        exact (Option.noConfusion h)
      · rw [if_neg h2] at h
        by_cases h3 : set_piezo_voltage (pv + resp / 10 ^ sc) = none
        · rw [if_pos h3] at h
          obtain rfl : resp / 10 ^ sc = s := by injection h
          exact ⟨h3, not_lt.mp h2, not_lt.mp h1, sc, le_refl sc, by omega, rfl⟩
        · rw [if_neg h3] at h
          obtain ⟨ha, hb, hc, k, hk1, hk2, hk3⟩ := ih (sc + 1) pv resp s h
          exact ⟨ha, hb, hc, k, by omega, by omega, hk3⟩

/-- `lockApply` only touches the piezo voltage. -/
lemma lockApply_fields (st : LockState) (r : Option ℚ) :
    (lockApply st r).1.counter = st.counter ∧ (lockApply st r).1.locked = st.locked ∧
      (lockApply st r).1.beginTime = st.beginTime := by
  cases r <;> exact ⟨rfl, rfl, rfl⟩

/-- `lockCore` never touches the piezo voltage. -/
lemma lockCore_piezo (cfg : LockCfg) (st : LockState) (inp : LockInput) :
    (lockCore cfg st inp).piezo = st.piezo := rfl

/-- Sample processing for an in-tolerance sample while not locked:
the counter increments, the lock signal becomes set exactly when the new
counter exceeds the threshold, and the timeout clock is untouched. -/
lemma lockCore_intol (cfg : LockCfg) (st : LockState) (inp : LockInput)
    (h : |inp.freq - cfg.setpoint| < cfg.tol) (hl : st.locked = false) :
    (lockCore cfg st inp).counter = st.counter + 1 ∧
    ((lockCore cfg st inp).locked = true ↔ cfg.stable_after < st.counter + 1) ∧
    (lockCore cfg st inp).beginTime = st.beginTime := by
  unfold lockCore
  refine ⟨by simp [h, hl], ?_, by simp [h]⟩
  by_cases hc : cfg.stable_after < st.counter + 1 <;> simp [h, hl, hc]

/-- Sample processing for an out-of-tolerance sample: the counter resets
to 0, the lock signal is cleared, and the timeout clock re-arms exactly
when the loop was locked. -/
lemma lockCore_outtol (cfg : LockCfg) (st : LockState) (inp : LockInput)
    (h : ¬ |inp.freq - cfg.setpoint| < cfg.tol) :
    (lockCore cfg st inp).counter = 0 ∧
    (lockCore cfg st inp).locked = false ∧
    (lockCore cfg st inp).beginTime = (if st.locked then inp.lossTime else st.beginTime) := by
  unfold lockCore
  exact ⟨by simp [h], by simp [h], by simp [h]⟩

/-- An iteration with no stop request and no timeout continues with the
processed sample and the scaled piezo step. -/
lemma lockStep_next (cfg : LockCfg) (st : LockState) (inp : LockInput)
    (h1 : inp.stop = false) (h2 : ¬(st.locked = false ∧ 30 < inp.now - st.beginTime)) :
    lockStep cfg st inp =
      StepResult.next
        (lockApply (lockCore cfg st inp) (scaleLoop st.piezo (lockResponse cfg st inp))).1
        (lockApply (lockCore cfg st inp) (scaleLoop st.piezo (lockResponse cfg st inp))).2 := by
  unfold lockStep
  simp [h1, h2]

/-- An iteration with no stop request, not locked, past the 30 s budget,
sets the stop signal, clears the locking indicator and raises. -/
lemma lockStep_failed (cfg : LockCfg) (st : LockState) (inp : LockInput)
    (h1 : inp.stop = false) (hl : st.locked = false) (ht : 30 < inp.now - st.beginTime) :
    lockStep cfg st inp = StepResult.failed true false := by
  unfold lockStep
  simp [h1, hl, ht]

/-- Unfolding `runLock` over a continuing iteration. -/
lemma runLock_cons_next (cfg : LockCfg) (st : LockState) (i : LockInput)
    (rest : List LockInput) (st2 : LockState) (ap : Option ℚ)
    (h : lockStep cfg st i = StepResult.next st2 ap) :
    runLock cfg st (i :: rest) = runLock cfg st2 rest := by
  simp [runLock, h]

/-- Unfolding `runLock` over a failing iteration. -/
lemma runLock_cons_failed (cfg : LockCfg) (st : LockState) (i : LockInput)
    (rest : List LockInput) (s b : Bool)
    (h : lockStep cfg st i = StepResult.failed s b) :
    runLock cfg st (i :: rest) = LockRun.failed s b := by
  simp [runLock, h]

/-- Feeding the loop a nonempty streak of in-tolerance samples (no stop
request, all within the 30 s budget) whose length tops the counter up to
`stable_after + 1` ends with `successfully_locked` set. -/
lemma runLock_intol_locks (cfg : LockCfg) :
    ∀ (inputs : List LockInput) (st : LockState),
      st.locked = false →
      st.counter + inputs.length = cfg.stable_after + 1 →
      inputs ≠ [] →
      (∀ i ∈ inputs, i.stop = false ∧ |i.freq - cfg.setpoint| < cfg.tol ∧
        i.now - st.beginTime ≤ 30) →
      ∃ st2, runLock cfg st inputs = LockRun.ongoing st2 ∧ st2.locked = true := by
  intro inputs
  induction inputs with
  | nil =>
    intro st _ _ hne _
    exact absurd rfl hne
  | cons i rest ih =>
    intro st hl hcnt _ hcond
    obtain ⟨hstop, hintol, htime⟩ := hcond i (List.mem_cons_self i rest)
    have hg : ¬(st.locked = false ∧ 30 < i.now - st.beginTime) := by
      rintro ⟨-, hgt⟩
      linarith
    have hstep := lockStep_next cfg st i hstop hg
    obtain ⟨hac, hal, hab⟩ :=
      lockApply_fields (lockCore cfg st i) (scaleLoop st.piezo (lockResponse cfg st i))
    obtain ⟨hcc, hcl, hcb⟩ := lockCore_intol cfg st i hintol hl
    cases rest with
    | nil =>
      refine ⟨(lockApply (lockCore cfg st i) (scaleLoop st.piezo (lockResponse cfg st i))).1,
        by simp [runLock, hstep], ?_⟩
      rw [hal]
      apply hcl.mpr
      simp at hcnt
      omega
    | cons j rest2 =>
      have hlen : st.counter + (rest2.length + 2) = cfg.stable_after + 1 := by
        simpa using hcnt
      have hl2 : (lockApply (lockCore cfg st i)
          (scaleLoop st.piezo (lockResponse cfg st i))).1.locked = false := by
        rw [hal]
        cases hres : (lockCore cfg st i).locked
        · rfl
        · exact absurd (hcl.mp hres) (by omega)
      have hcnt2 : (lockApply (lockCore cfg st i)
          (scaleLoop st.piezo (lockResponse cfg st i))).1.counter +
            (j :: rest2).length = cfg.stable_after + 1 := by
        rw [hac, hcc]
        simp only [List.length_cons]
        omega
      have hcond2 : ∀ x ∈ j :: rest2, x.stop = false ∧ |x.freq - cfg.setpoint| < cfg.tol ∧
          x.now - (lockApply (lockCore cfg st i)
            (scaleLoop st.piezo (lockResponse cfg st i))).1.beginTime ≤ 30 := by
        intro x hx
        obtain ⟨ha2, hb2, hc2⟩ := hcond x (List.mem_cons_of_mem i hx)
        rw [hab, hcb]
        exact ⟨ha2, hb2, hc2⟩
      obtain ⟨st3, hrun, hl3⟩ := ih
        (lockApply (lockCore cfg st i) (scaleLoop st.piezo (lockResponse cfg st i))).1
        hl2 hcnt2 (by simp) hcond2
      refine ⟨st3, ?_, hl3⟩
      rw [runLock_cons_next cfg st i (j :: rest2) _ _ hstep]
      exact hrun

/-- A run of out-of-tolerance samples (no stop request) in which some
sample arrives more than 30 s after the search start ends with the
timeout failure: stop signal set, locking indicator cleared. -/
lemma runLock_outtol_fails (cfg : LockCfg) :
    ∀ (inputs : List LockInput) (st : LockState),
      st.locked = false →
      (∀ i ∈ inputs, i.stop = false ∧ cfg.tol ≤ |i.freq - cfg.setpoint|) →
      (∃ i ∈ inputs, 30 < i.now - st.beginTime) →
      runLock cfg st inputs = LockRun.failed true false := by
  intro inputs
  induction inputs with
  | nil =>
    intro st _ _ hex
    simp at hex
  | cons i rest ih =>
    intro st hl hout hex
    obtain ⟨hstop, houtI⟩ := hout i (List.mem_cons_self i rest)
    by_cases ht : 30 < i.now - st.beginTime
    · have hstep := lockStep_failed cfg st i hstop hl ht
      simp [runLock, hstep]
    · have hg : ¬(st.locked = false ∧ 30 < i.now - st.beginTime) := by
        rintro ⟨-, h2⟩
        exact ht h2
      have hstep := lockStep_next cfg st i hstop hg
      obtain ⟨hac, hal, hab⟩ :=
        lockApply_fields (lockCore cfg st i) (scaleLoop st.piezo (lockResponse cfg st i))
      obtain ⟨hcc, hcl, hcb⟩ := lockCore_outtol cfg st i (not_lt.mpr houtI)
      have hl2 : (lockApply (lockCore cfg st i)
          (scaleLoop st.piezo (lockResponse cfg st i))).1.locked = false := by
        rw [hal, hcl]
      have hb2 : (lockApply (lockCore cfg st i)
          (scaleLoop st.piezo (lockResponse cfg st i))).1.beginTime = st.beginTime := by
        rw [hab, hcb, hl]
        rfl
      obtain ⟨j, hj, hjt⟩ := hex
      rcases List.mem_cons.mp hj with rfl | hjrest
      · exact absurd hjt ht
      · have hex2 : ∃ x ∈ rest, 30 < x.now -
            (lockApply (lockCore cfg st i)
              (scaleLoop st.piezo (lockResponse cfg st i))).1.beginTime := by
          refine ⟨j, hjrest, ?_⟩
          rwa [hb2]
        have hrun := ih
          (lockApply (lockCore cfg st i) (scaleLoop st.piezo (lockResponse cfg st i))).1
          hl2 (fun x hx => hout x (List.mem_cons_of_mem i hx)) hex2
        rw [runLock_cons_next cfg st i rest _ _ hstep]
        exact hrun

/-- C1 (corrected claim): on every exit path of the move phase — success
of all moves or failure of any move step — the stored-position write-back
is invoked exactly once, as the final device action before any error is
re-raised, and the value written is `storedPosition + liveRelativePosition`
(the code adds the live relative reading directly; it never reads a
pre-move baseline and never subtracts one). -/
theorem c1_writeback_exactly_once (stored : ℤ) (target : ℚ) (dev : MoveDev) :
    ∃ ms : List ℚ,
      (movePhase stored target dev).1 =
        ms.map MotorEvent.moveCall ++
          [MotorEvent.readRel (relAfter dev ms.length),
           MotorEvent.writeHome (stored + relAfter dev ms.length)] := by
  by_cases hd : target - (stored : ℚ) < 0
  · cases h0 : dev.moveOk 0
    · exact ⟨[target - (stored : ℚ) - 10000],
        by simp [movePhase, writeFinalPosition, hd, h0]⟩
    · cases h1 : dev.moveOk 1
      · exact ⟨[target - (stored : ℚ) - 10000, 10000],
          by simp [movePhase, writeFinalPosition, hd, h0, h1]⟩
      · exact ⟨[target - (stored : ℚ) - 10000, 10000],
          by simp [movePhase, writeFinalPosition, hd, h0, h1]⟩
  · cases h0 : dev.moveOk 0
    · exact ⟨[target - (stored : ℚ)],
        by simp [movePhase, writeFinalPosition, hd, h0]⟩
    · exact ⟨[target - (stored : ℚ)],
        by simp [movePhase, writeFinalPosition, hd, h0]⟩

/-- C1 counterexample to the claim as stated: with stored position 1000,
target 900, a pre-move relative counter (baseline) of 5, and both moves
succeeding with their commanded displacements, the live relative reading
is -95 and the code writes back 1000 + (-95) = 905, whereas the claimed
value `storedPosition + (liveRelativePosition - baselineRelativePosition)`
is 1000 + (-95 - 5) = 900. -/
theorem c1_baseline_subtraction_counterexample :
    (movePhase 1000 900
        (⟨1000, 900, 5, fun _ => true,
          fun k => if k = 0 then -10100 else if k = 1 then 10000 else 0,
          fun _ => true⟩ : MoveDev)).1 =
      [MotorEvent.moveCall (-10100), MotorEvent.moveCall 10000,
       MotorEvent.readRel (-95), MotorEvent.writeHome 905] ∧
    (905 : ℤ) ≠ 1000 + (-95 - 5) := by
  constructor
  · norm_num [movePhase, writeFinalPosition, relAfter, List.range_succ]
  · decide

/-- C2 (code bug): for every calibration record and every requested
wavelength — in range or not — `go_to_wavelength` raises KeyError on the
misspelled dictionary key 'max_wavlength' (MaxonMotor.py line 127) before
the range check of line 128 completes and before any device I/O (empty
trace: no enable, move, poll, or position write), and `go_to_frequency`
propagates the same exception with zero actuator calls.  The intended
out-of-range ValueError of line 129 is unreachable. -/
theorem c2_keyerror_before_device_io (p : CalcParameters) (w : ℚ) (dev : MoveDev) :
    go_to_wavelength p w dev = ([], some (PyErr.keyError DictKey.max_wavlength)) ∧
    go_to_frequency p w dev = ([], some (PyErr.keyError DictKey.max_wavlength)) :=
  ⟨rfl, rfl⟩

/-- C3 (code bug): with the in-range request 850 nm on calibration bounds
[800, 900], `go_to_wavelength` raises KeyError with an empty device trace —
zero relative-move commands are issued, contradicting the claimed two-call
sequence.  The move-phase code itself (lines 143-162), entered with
storedPosition 1000 and targetPosition 900 (diff = -100 < 0) on a device
whose moves succeed, does issue exactly the two relative moves -10100 then
+10000, in that order, before the single write-back — so the claim holds of
the move phase and is defeated only by the key typo upstream. -/
theorem c3_move_sequence_evaluation :
    go_to_wavelength (⟨1, 0, 0, 800, 900⟩ : CalcParameters) 850
        (⟨1000, 900, 0, fun _ => true,
          fun k => if k = 0 then -10100 else if k = 1 then 10000 else 0,
          fun _ => true⟩ : MoveDev) =
      ([], some (PyErr.keyError DictKey.max_wavlength)) ∧
    movePhase 1000 900
        (⟨1000, 900, 0, fun _ => true,
          fun k => if k = 0 then -10100 else if k = 1 then 10000 else 0,
          fun _ => true⟩ : MoveDev) =
      ([MotorEvent.moveCall (-10100), MotorEvent.moveCall 10000,
        MotorEvent.readRel (-100), MotorEvent.writeHome 900], none) := by
  constructor
  · rfl
  · norm_num [movePhase, writeFinalPosition, relAfter, List.range_succ]

/-- C7: for a calibration with A nonzero and a wavelength with nonnegative
radicand, `wavelength_to_position` returns the root whose sign is
`root_sign_plus (A > 0) ascending`; the + root is chosen exactly when the
sign of A agrees with the ascending flag computed from
`position_to_wavelength 5000` versus `position_to_wavelength 0`; negating
A flips the sign test, and flipping either argument of the branch table
while holding the other fixed flips the chosen root sign. -/
theorem c7_root_branch_selection (p : CalcParameters) (w : ℚ) (hA : p.A ≠ 0)
    (hd : 0 ≤ wtpDisc p w) :
    (wavelength_to_position p w =
        SymPos.root (vertex p) (root_sign_plus (decide (0 < p.A)) (ascendingFlag p))
          (wtpDisc p w)) ∧
    (wavelength_to_position p w = SymPos.root (vertex p) true (wtpDisc p w) ↔
      decide (0 < p.A) = ascendingFlag p) ∧
    (decide (0 < -p.A) = !(decide (0 < p.A))) ∧
    (∀ a b : Bool, root_sign_plus (!a) b = !(root_sign_plus a b)) := by
  have hnd : ¬ wtpDisc p w < 0 := not_lt.mpr hd
  refine ⟨?_, ?_, ?_, ?_⟩
  · unfold wavelength_to_position
    rw [if_neg hnd]
    cases hb : root_sign_plus (decide (0 < p.A)) (ascendingFlag p) <;> simp [hb]
  · unfold wavelength_to_position
    rw [if_neg hnd]
    cases ha : decide (0 < p.A) <;> cases hasc : ascendingFlag p <;>
      simp [root_sign_plus, ha, hasc]
  · rcases lt_trichotomy p.A 0 with h | h | h
    · have h1 : (0 : ℤ) < -p.A := by linarith
      have h2 : ¬ (0 : ℤ) < p.A := by linarith
      simp [h1, h2]
    · exact absurd h hA
    · have h1 : ¬ (0 : ℤ) < -p.A := by linarith
      have h2 : (0 : ℤ) < p.A := h
      simp [h1, h2]
  · intro a b
    cases a <;> cases b <;> rfl

/-- C7 witness: the calibration A = 1, B = 0, C = 0 at wavelength 4 has a
nonnegative radicand and the theorem applies. -/
theorem c7_root_branch_selection_witness :
    ((⟨1, 0, 0, 800, 900⟩ : CalcParameters).A ≠ 0) ∧
    (0 ≤ wtpDisc (⟨1, 0, 0, 800, 900⟩ : CalcParameters) 4) ∧
    wavelength_to_position (⟨1, 0, 0, 800, 900⟩ : CalcParameters) 4 =
      SymPos.root (vertex (⟨1, 0, 0, 800, 900⟩ : CalcParameters))
        (root_sign_plus (decide ((0 : ℤ) < (⟨1, 0, 0, 800, 900⟩ : CalcParameters).A))
          (ascendingFlag (⟨1, 0, 0, 800, 900⟩ : CalcParameters)))
        (wtpDisc (⟨1, 0, 0, 800, 900⟩ : CalcParameters) 4) :=
  ⟨by decide, by norm_num [wtpDisc],
    (c7_root_branch_selection (⟨1, 0, 0, 800, 900⟩ : CalcParameters) 4 (by decide)
      (by norm_num [wtpDisc])).1⟩

/-- C8 counterexample to the claim as stated: for A = 1, B = 0, C = 0 the
radicand at wavelength -1 is negative, yet `wavelength_to_position` raises
nothing — it returns normally with the float NaN (np.sqrt of a negative
argument emits only a RuntimeWarning), not an OutOfDomain failure. -/
theorem c8_nan_counterexample :
    wtpDisc (⟨1, 0, 0, 0, 1000⟩ : CalcParameters) (-1) < 0 ∧
    wavelength_to_position (⟨1, 0, 0, 0, 1000⟩ : CalcParameters) (-1) = SymPos.nan := by
  constructor
  · norm_num [wtpDisc]
  · norm_num [wavelength_to_position, wtpDisc]

/-- C8 (corrected claim): for every wavelength whose radicand
`B^2/(4A^2) - (C - w)/A` is negative, `wavelength_to_position` returns NaN
(a normal float return, no exception raised). -/
theorem c8_negative_disc_returns_nan (p : CalcParameters) (w : ℚ)
    (hd : wtpDisc p w < 0) :
    wavelength_to_position p w = SymPos.nan := by
  unfold wavelength_to_position
  rw [if_pos hd]

/-- C8 witness: A = 2, B = 0, C = 5 at wavelength 1 has radicand -2. -/
theorem c8_negative_disc_returns_nan_witness :
    wtpDisc (⟨2, 0, 5, 0, 1000⟩ : CalcParameters) 1 < 0 ∧
    wavelength_to_position (⟨2, 0, 5, 0, 1000⟩ : CalcParameters) 1 = SymPos.nan :=
  ⟨by norm_num [wtpDisc],
    c8_negative_disc_returns_nan (⟨2, 0, 5, 0, 1000⟩ : CalcParameters) 1
      (by norm_num [wtpDisc])⟩

/-- C9 counterexample to the claim as stated: for the raw word 1,
`read_calc_parameters` yields A = 1 (direct signed-int32 read), while the
spec's decodeFloat bit layout decodes 1 to 0 (zero mantissa, exponent 1);
the two disagree, so A, B, C are not obtained via decodeFloat. -/
theorem c9_decode_counterexample :
    (read_calc_parameters 1 0 0 0).A = 1 ∧ decodeFloatSpec 1 = 0 ∧
    ((read_calc_parameters 1 0 0 0).A : ℚ) ≠ decodeFloatSpec 1 := by
  refine ⟨?_, ?_, ?_⟩ <;> norm_num [read_calc_parameters, toInt32, decodeFloatSpec]

/-- C9 (corrected claim): the calibration constants are the direct
two's-complement signed-int32 interpretations of the three raw words, and
the wavelength bounds the two 16-bit halves of the fourth word divided by
10; the decode is deterministic, lands in [-2^31, 2^31), and agrees with
the raw word modulo 2^32. -/
theorem c9_int32_direct_reads (rawA rawB rawC rawW : ℕ) :
    (read_calc_parameters rawA rawB rawC rawW).A = toInt32 rawA ∧
    (read_calc_parameters rawA rawB rawC rawW).B = toInt32 rawB ∧
    (read_calc_parameters rawA rawB rawC rawW).C = toInt32 rawC ∧
    (read_calc_parameters rawA rawB rawC rawW).min_wavelength =
      ((rawW % 2 ^ 16 : ℕ) : ℚ) / 10 ∧
    (read_calc_parameters rawA rawB rawC rawW).max_wavelength =
      ((rawW / 2 ^ 16 % 2 ^ 16 : ℕ) : ℚ) / 10 ∧
    (-(2 ^ 31) ≤ toInt32 rawA ∧ toInt32 rawA < 2 ^ 31) ∧
    (toInt32 rawA) % (2 ^ 32 : ℤ) = ((rawA % 2 ^ 32 : ℕ) : ℤ) := by
  refine ⟨rfl, rfl, rfl, rfl, rfl, ?_, ?_⟩ <;> (unfold toInt32; split <;> omega)


/-- A list in which every contiguous block of in-tolerance samples has
length at most `stable_after` passes the counter simulation: the counter
never tops the locking threshold.  `h1` bounds the initial streak relative
to the starting counter `c`; `h2` bounds every later streak. -/
lemma streaks_bounded_neverTops (cfg : LockCfg) :
    ∀ (inputs : List LockInput) (c : ℕ),
      (∀ mid post2, inputs = mid ++ post2 →
        (∀ i ∈ mid, |i.freq - cfg.setpoint| < cfg.tol) →
        c + mid.length ≤ cfg.stable_after) →
      (∀ l₁ mid l₂, inputs = l₁ ++ mid ++ l₂ →
        (∀ i ∈ mid, |i.freq - cfg.setpoint| < cfg.tol) →
        mid.length ≤ cfg.stable_after) →
      neverTops cfg c inputs = true := by
  intro inputs
  induction inputs with
  | nil =>
    intro c _ _
    rfl
  | cons i rest ih =>
    intro c h1 h2
    by_cases hint : |i.freq - cfg.setpoint| < cfg.tol
    · have hle : c + 1 ≤ cfg.stable_after := by
        have hsing : ∀ x ∈ [i], |x.freq - cfg.setpoint| < cfg.tol := by
          intro x hx
          rw [List.mem_singleton] at hx
          rw [hx]
          exact hint
        have := h1 [i] rest rfl hsing
        simpa using this
      have hrec : neverTops cfg (c + 1) rest = true := by
        apply ih (c + 1)
        · intro mid post2 heq hmid
          have hmid2 : ∀ x ∈ i :: mid, |x.freq - cfg.setpoint| < cfg.tol := by
            intro x hx
            rcases List.mem_cons.mp hx with rfl | hxm
            · exact hint
            · exact hmid x hxm
          have := h1 (i :: mid) post2 (by simp [heq]) hmid2
          simp at this
          omega
        · intro l₁ mid l₂ heq hmid
          exact h2 (i :: l₁) mid l₂ (by simp [heq]) hmid
      simp [neverTops, hint, hle, hrec]
    · have hrec : neverTops cfg 0 rest = true := by
        apply ih 0
        · intro mid post2 heq hmid
          have := h2 [i] mid post2 (by simp [heq]) hmid
          omega
        · intro l₁ mid l₂ heq hmid
          exact h2 (i :: l₁) mid l₂ (by simp [heq]) hmid
      simp [neverTops, hint, hrec]

/-- From any unlocked state whose counter simulation never tops the
threshold over `pre` (so `successfully_locked` is never set and the search
start is never re-armed), a run of stop-free samples followed by an
iteration starting more than 30 s after the search start ends in the
timeout failure. -/
lemma runLock_unlocked_timeout (cfg : LockCfg) :
    ∀ (pre : List LockInput) (st : LockState),
      st.locked = false →
      (∀ i ∈ pre, i.stop = false) →
      neverTops cfg st.counter pre = true →
      ∀ (late : LockInput) (post : List LockInput),
        late.stop = false → 30 < late.now - st.beginTime →
        runLock cfg st (pre ++ late :: post) = LockRun.failed true false := by
  intro pre
  induction pre with
  | nil =>
    intro st hl _ _ late post hstopl hlate
    rw [List.nil_append]
    exact runLock_cons_failed cfg st late post true false
      (lockStep_failed cfg st late hstopl hl hlate)
  | cons i rest ih =>
    intro st hl hstop hnt late post hstopl hlate
    have hstopi : i.stop = false := hstop i (List.mem_cons_self i rest)
    rw [List.cons_append]
    by_cases ht : 30 < i.now - st.beginTime
    · exact runLock_cons_failed cfg st i (rest ++ late :: post) true false
        (lockStep_failed cfg st i hstopi hl ht)
    · have hg : ¬(st.locked = false ∧ 30 < i.now - st.beginTime) := by
        rintro ⟨-, h2⟩
        exact ht h2
      have hstep := lockStep_next cfg st i hstopi hg
      rw [runLock_cons_next cfg st i (rest ++ late :: post) _ _ hstep]
      obtain ⟨hac, hal, hab⟩ :=
        lockApply_fields (lockCore cfg st i) (scaleLoop st.piezo (lockResponse cfg st i))
      by_cases hint : |i.freq - cfg.setpoint| < cfg.tol
      · obtain ⟨hcc, hcl, hcb⟩ := lockCore_intol cfg st i hint hl
        simp only [neverTops, if_pos hint, Bool.and_eq_true, decide_eq_true_eq] at hnt
        obtain ⟨hle, hnt2⟩ := hnt
        have hl2 : (lockApply (lockCore cfg st i)
            (scaleLoop st.piezo (lockResponse cfg st i))).1.locked = false := by
          rw [hal]
          cases hres : (lockCore cfg st i).locked
          · rfl
          · exact absurd (hcl.mp hres) (by omega)
        have hnt3 : neverTops cfg (lockApply (lockCore cfg st i)
            (scaleLoop st.piezo (lockResponse cfg st i))).1.counter rest = true := by
          rw [hac, hcc]
          exact hnt2
        have hb2 : (lockApply (lockCore cfg st i)
            (scaleLoop st.piezo (lockResponse cfg st i))).1.beginTime = st.beginTime := by
          rw [hab, hcb]
        exact ih _ hl2 (fun x hx => hstop x (List.mem_cons_of_mem i hx)) hnt3 late post
          hstopl (by rwa [hb2])
      · obtain ⟨hcc, hcl, hcb⟩ := lockCore_outtol cfg st i hint
        simp only [neverTops, if_neg hint] at hnt
        have hl2 : (lockApply (lockCore cfg st i)
            (scaleLoop st.piezo (lockResponse cfg st i))).1.locked = false := by
          rw [hal, hcl]
        have hnt3 : neverTops cfg (lockApply (lockCore cfg st i)
            (scaleLoop st.piezo (lockResponse cfg st i))).1.counter rest = true := by
          rw [hac, hcc]
          exact hnt
        have hb2 : (lockApply (lockCore cfg st i)
            (scaleLoop st.piezo (lockResponse cfg st i))).1.beginTime = st.beginTime := by
          rw [hab, hcb, hl]
          rfl
        exact ih _ hl2 (fun x hx => hstop x (List.mem_cons_of_mem i hx)) hnt3 late post
          hstopl (by rwa [hb2])

/-- C4: in a run that is not yet locked (counter 0, lock signal clear), a
streak of `stable_after + 1` consecutive in-tolerance samples — no stop
request, all within the 30 s budget — sets `successfully_locked`; and once
locked, a single out-of-tolerance sample continues the loop with the lock
signal cleared, the stability counter reset to 0, and the give-up timeout
clock re-armed to the lock-loss time. -/
theorem c4_streak_locks_and_loss_resets :
    (∀ (cfg : LockCfg) (st : LockState) (inputs : List LockInput),
      1 ≤ cfg.tau → st.locked = false → st.counter = 0 →
      inputs.length = cfg.stable_after + 1 →
      (∀ i ∈ inputs, i.stop = false ∧ |i.freq - cfg.setpoint| < cfg.tol ∧
        i.now - st.beginTime ≤ 30) →
      ∃ st2, runLock cfg st inputs = LockRun.ongoing st2 ∧ st2.locked = true) ∧
    (∀ (cfg : LockCfg) (st : LockState) (inp : LockInput),
      1 ≤ cfg.tau → st.locked = true → inp.stop = false →
      cfg.tol ≤ |inp.freq - cfg.setpoint| →
      ∃ st2 ap, lockStep cfg st inp = StepResult.next st2 ap ∧
        st2.locked = false ∧ st2.counter = 0 ∧ st2.beginTime = inp.lossTime) := by
  constructor
  · intro cfg st inputs _ hl hc0 hlen hcond
    have hne : inputs ≠ [] := by
      intro heq
      rw [heq] at hlen
      simp at hlen
    exact runLock_intol_locks cfg inputs st hl (by omega) hne hcond
  · intro cfg st inp _ hl hstop hout
    have hg : ¬(st.locked = false ∧ 30 < inp.now - st.beginTime) := by
      rintro ⟨hfalse, -⟩
      rw [hl] at hfalse
      exact Bool.noConfusion hfalse
    have hstep := lockStep_next cfg st inp hstop hg
    obtain ⟨hac, hal, hab⟩ :=
      lockApply_fields (lockCore cfg st inp) (scaleLoop st.piezo (lockResponse cfg st inp))
    obtain ⟨hcc, hcl, hcb⟩ := lockCore_outtol cfg st inp (not_lt.mpr hout)
    refine ⟨_, _, hstep, ?_, ?_, ?_⟩
    · rw [hal, hcl]
    · rw [hac, hcc]
    · rw [hab, hcb, hl]
      rfl

/-- C4 witness: with tolerance 1 around setpoint 0 and stable_after 2,
three consecutive zero-error samples lock the loop; and a locked state hit
by an error of 10 unlocks, zeroes the counter and re-arms the clock to the
loss time 42. -/
theorem c4_streak_locks_and_loss_resets_witness :
    (∃ st2, runLock (⟨0, 1, 1, 1, 10, 2⟩ : LockCfg) (⟨0, false, 0, [], 0⟩ : LockState)
        [⟨false, 1, 1, 0⟩, ⟨false, 2, 2, 0⟩, ⟨false, 3, 3, 0⟩] = LockRun.ongoing st2 ∧
        st2.locked = true) ∧
    (∃ st2 ap, lockStep (⟨0, 1, 1, 1, 10, 2⟩ : LockCfg) (⟨5, true, 0, [], 0⟩ : LockState)
        (⟨false, 100, 42, 10⟩ : LockInput) = StepResult.next st2 ap ∧
        st2.locked = false ∧ st2.counter = 0 ∧ st2.beginTime = 42) :=
  ⟨c4_streak_locks_and_loss_resets.1 (⟨0, 1, 1, 1, 10, 2⟩ : LockCfg)
      (⟨0, false, 0, [], 0⟩ : LockState)
      [⟨false, 1, 1, 0⟩, ⟨false, 2, 2, 0⟩, ⟨false, 3, 3, 0⟩]
      (by norm_num) rfl rfl rfl
      (by
        intro i hi
        fin_cases hi <;> norm_num),
   c4_streak_locks_and_loss_resets.2 (⟨0, 1, 1, 1, 10, 2⟩ : LockCfg)
      (⟨5, true, 0, [], 0⟩ : LockState) (⟨false, 100, 42, 10⟩ : LockInput)
      (by norm_num) rfl rfl (by norm_num [abs_of_nonneg])⟩

/-- C5: from any unlocked search-start state (stability counter 0, lock
signal clear; `st.beginTime` is the — possibly re-armed — search start,
and lock loss produces exactly such a state with the loss time as its
`beginTime`, per the loss half of the C4 theorem), a run of stop-free
samples in which every contiguous in-tolerance streak stays at or below
`stable_after` (so no streak reaches the stability threshold and the lock
is never achieved), followed by an iteration starting more than 30 s
after the search start, exits with the timeout failure: `_stop_locking`
is set, `_is_locking` is cleared, and `FailedToLockLaser` is the raised
failure (the `failed true false` outcome).  Samples after the late
iteration are unconstrained — the loop has already given up. -/
theorem c5_timeout_raises_failed_to_lock (cfg : LockCfg) (st : LockState)
    (pre : List LockInput) (late : LockInput) (post : List LockInput)
    (htau : 1 ≤ cfg.tau) (hl : st.locked = false) (hc0 : st.counter = 0)
    (hstop : ∀ i ∈ pre, i.stop = false) (hstopl : late.stop = false)
    (hstreak : ∀ l₁ mid l₂, pre = l₁ ++ mid ++ l₂ →
      (∀ i ∈ mid, |i.freq - cfg.setpoint| < cfg.tol) →
      mid.length ≤ cfg.stable_after)
    (hlate : 30 < late.now - st.beginTime) :
    runLock cfg st (pre ++ late :: post) = LockRun.failed true false := by
  have hnt : neverTops cfg st.counter pre = true := by
    rw [hc0]
    apply streaks_bounded_neverTops cfg pre 0
    · intro mid post2 heq hmid
      have := hstreak [] mid post2 (by simp [heq]) hmid
      omega
    · exact hstreak
  exact runLock_unlocked_timeout cfg pre st hl hstop hnt late post hstopl hlate

/-- C5 witness: a search started at time 0 sees one in-tolerance sample
(streak of length 1, below the threshold 3), falls back out of tolerance,
and the iteration at time 31 fails the run with the stop signal set and
the locking indicator clear. -/
theorem c5_timeout_raises_failed_to_lock_witness :
    runLock (⟨0, 1, 1, 1, 10, 3⟩ : LockCfg) (⟨0, false, 0, [], 0⟩ : LockState)
      ([⟨false, 1, 1, 0⟩, ⟨false, 2, 2, 5⟩] ++ ⟨false, 31, 31, 5⟩ :: []) =
      LockRun.failed true false :=
  c5_timeout_raises_failed_to_lock (⟨0, 1, 1, 1, 10, 3⟩ : LockCfg)
    (⟨0, false, 0, [], 0⟩ : LockState)
    [⟨false, 1, 1, 0⟩, ⟨false, 2, 2, 5⟩] (⟨false, 31, 31, 5⟩ : LockInput) []
    (by norm_num) rfl rfl
    (by
      intro i hi
      fin_cases hi <;> rfl)
    rfl
    (by
      intro l₁ mid l₂ heq hmid
      have hlen := congrArg List.length heq
      simp at hlen
      show mid.length ≤ 3
      omega)
    (by norm_num)

/-- C6: every step the scaling loop actually applies passed the
`set_piezo_voltage` bound check (so the new voltage lies in [-13, 13]) and
is the PI response scaled down by a power of ten reached within the 6
permitted attempts — an out-of-bounds ValueError is always caught and
retried smaller, never propagated; and every iteration whose stop and
timeout guards do not fire ends in a `next` outcome, so the only failure
the loop can raise is `FailedToLockLaser`. -/
theorem c6_bounded_scaled_retry :
    (∀ (pv resp s : ℚ), scaleLoop pv resp = some s →
      set_piezo_voltage (pv + s) = none ∧ -13 ≤ pv + s ∧ pv + s ≤ 13 ∧
        ∃ k, k < 6 ∧ s = resp / 10 ^ k) ∧
    (∀ (cfg : LockCfg) (st : LockState) (inp : LockInput), 1 ≤ cfg.tau →
      inp.stop = false → ¬(st.locked = false ∧ 30 < inp.now - st.beginTime) →
      ∃ st2 ap, lockStep cfg st inp = StepResult.next st2 ap) := by
  constructor
  · intro pv resp s h
    obtain ⟨ha, -, -, k, -, hk2, hk3⟩ := scaleLoopFrom_some 6 0 pv resp s h
    obtain ⟨hb1, hb2⟩ := (set_piezo_voltage_none_iff (pv + s)).mp ha
    exact ⟨ha, hb1, hb2, k, by omega, hk3⟩
  · intro cfg st inp _ h1 h2
    exact ⟨_, _, lockStep_next cfg st inp h1 h2⟩

/-- C6 witness: at piezo voltage 12.995 a raw step of 0.01 would exceed
13 V; the loop retries at 0.001 (one factor of ten down), which fits the
bound and is applied; and a quiet first iteration yields a `next`
outcome. -/
theorem c6_bounded_scaled_retry_witness :
    scaleLoop (2599 / 200) (1 / 100) = some (1 / 1000) ∧
    (set_piezo_voltage (2599 / 200 + 1 / 1000) = none ∧
      (-13 : ℚ) ≤ 2599 / 200 + 1 / 1000 ∧ (2599 / 200 : ℚ) + 1 / 1000 ≤ 13 ∧
      ∃ k, k < 6 ∧ (1 / 1000 : ℚ) = (1 / 100) / 10 ^ k) ∧
    (∃ st2 ap, lockStep (⟨0, 1, 1, 1, 10, 10⟩ : LockCfg)
      (⟨0, false, 0, [], 0⟩ : LockState) (⟨false, 1, 1, 0⟩ : LockInput) =
        StepResult.next st2 ap) := by
  have h : scaleLoop (2599 / 200) (1 / 100) = some (1 / 1000) := by
    norm_num [scaleLoop, scaleLoopFrom, set_piezo_voltage, abs_of_nonneg,
      Option.some_ne_none]
  refine ⟨h, c6_bounded_scaled_retry.1 (2599 / 200) (1 / 100) (1 / 1000) h,
    c6_bounded_scaled_retry.2 (⟨0, 1, 1, 1, 10, 10⟩ : LockCfg)
      (⟨0, false, 0, [], 0⟩ : LockState) (⟨false, 1, 1, 0⟩ : LockInput)
      (by norm_num) rfl ?_⟩
  rintro ⟨-, hcon⟩
  norm_num at hcon

/-- C10: every voltage step the scaling loop applies has magnitude between
0.001 V and 0.1 V inclusive (candidate steps above the fixed 0.1 V cap are
scaled down before the 13 V bound is even consulted; steps below 0.001 V
are skipped); consequently each loop iteration moves the piezo voltage by
at most 0.1 V — exactly the applied step when one is applied, and not at
all when the step is skipped. -/
theorem c10_applied_step_bounds :
    (∀ (pv resp s : ℚ), scaleLoop pv resp = some s →
      1 / 1000 ≤ |s| ∧ |s| ≤ 1 / 10) ∧
    (∀ (cfg : LockCfg) (st : LockState) (inp : LockInput) (st2 : LockState)
      (ap : Option ℚ), 1 ≤ cfg.tau → lockStep cfg st inp = StepResult.next st2 ap →
      |st2.piezo - st.piezo| ≤ 1 / 10 ∧
        (∀ s, ap = some s → st2.piezo = st.piezo + s ∧ 1 / 1000 ≤ |s|) ∧
        (ap = none → st2.piezo = st.piezo)) := by
  constructor
  · intro pv resp s h
    obtain ⟨-, hb, hc, -⟩ := scaleLoopFrom_some 6 0 pv resp s h
    exact ⟨hb, hc⟩
  · intro cfg st inp st2 ap _ h
    by_cases h1 : inp.stop = true
    · rw [lockStep, if_pos h1] at h
      exact absurd h (by simp)
    · have h1f : inp.stop = false := by
        revert h1
        cases inp.stop <;> simp
      by_cases h2 : st.locked = false ∧ 30 < inp.now - st.beginTime
      · rw [lockStep, if_neg (by simp [h1f]), if_pos h2] at h
        exact absurd h (by simp)
      · rw [lockStep_next cfg st inp h1f h2] at h
        injection h with e1 e2
        cases hs : scaleLoop st.piezo (lockResponse cfg st inp) with
        | none =>
          rw [hs] at e1 e2
          have hpz : st2.piezo = st.piezo := by
            rw [← e1]
            exact lockCore_piezo cfg st inp
          have hap0 : ap = none := by
            rw [← e2]
            rfl
          refine ⟨?_, ?_, fun _ => hpz⟩
          · rw [hpz]
            simp
          · intro s hap
            rw [hap0] at hap
            exact Option.noConfusion hap
        | some s0 =>
          rw [hs] at e1 e2
          obtain ⟨-, hb, hc, -⟩ := scaleLoopFrom_some 6 0 st.piezo
            (lockResponse cfg st inp) s0 hs
          have hpz : st2.piezo = st.piezo + s0 := by
            rw [← e1]
            show (lockCore cfg st inp).piezo + s0 = st.piezo + s0
            rw [lockCore_piezo]
          have hap0 : ap = some s0 := by
            rw [← e2]
            rfl
          refine ⟨?_, ?_, ?_⟩
          · rw [hpz, add_sub_cancel_left]
            exact hc
          · intro s hap
            rw [hap0] at hap
            injection hap with hss
            refine ⟨by rw [hpz, hss], ?_⟩
            rw [← hss]
            exact hb
          · intro hn
            rw [hap0] at hn
            exact Option.noConfusion hn

/-- C10 witness: a step of 0.02 V is applied as-is (within [0.001, 0.1]);
a quiet iteration with zero response skips the step and leaves the piezo
voltage unchanged. -/
theorem c10_applied_step_bounds_witness :
    scaleLoop 0 (1 / 50) = some (1 / 50) ∧
    (1 / 1000 ≤ |(1 / 50 : ℚ)| ∧ |(1 / 50 : ℚ)| ≤ 1 / 10) ∧
    |((⟨1, false, 0, [0], 0⟩ : LockState).piezo -
        (⟨0, false, 0, [], 0⟩ : LockState).piezo)| ≤ 1 / 10 := by
  have h1 : scaleLoop 0 (1 / 50) = some (1 / 50) := by
    norm_num [scaleLoop, scaleLoopFrom, set_piezo_voltage, abs_of_nonneg]
  have h2 : lockStep (⟨0, 1, 0, 0, 10, 2⟩ : LockCfg) (⟨0, false, 0, [], 0⟩ : LockState)
      (⟨false, 1, 1, 0⟩ : LockInput) = StepResult.next (⟨1, false, 0, [0], 0⟩ : LockState) none := by
    norm_num [lockStep, lockCore, lockApply, lockResponse, lockKp, appendCapped,
      scaleLoop, scaleLoopFrom, set_piezo_voltage, abs_of_nonneg]
  exact ⟨h1, c10_applied_step_bounds.1 0 (1 / 50) (1 / 50) h1,
    (c10_applied_step_bounds.2 (⟨0, 1, 0, 0, 10, 2⟩ : LockCfg)
      (⟨0, false, 0, [], 0⟩ : LockState) (⟨false, 1, 1, 0⟩ : LockInput)
      (⟨1, false, 0, [0], 0⟩ : LockState) none (by norm_num) h2).1⟩
